import Mathlib

/-!
Verification of the incremental ClickHouse→DuckDB sync engine
(`src/db_api/clickhouse_to_duckdb.py`) against its specification.

The embedding below models:
  * watermark values as naturals (seconds since epoch; `toDate` is division
    by 86400, matching ClickHouse `toDate` on a `DateTime`),
  * source rows as their watermark values (the only field the sync logic
    inspects),
  * the destination (DuckDB) table as `Option (List Nat)`:
    `none` = table absent, `some l` = table holding rows `l`,
  * DuckDB cell values returned by `fetchone()` as a `Value` type carrying
    Python truthiness (`datetime` is always truthy; `0`, `""` and `NULL`
    are falsy), since line 100 of the source tests `if result and result[0]`,
  * network fetches as oracles (`Nat → List Nat` for offset slices,
    `Nat → Except String (List Nat)` for per-attempt outcomes), and a raised
    Python exception as an `Except.error` that propagates.
-/

namespace ClickhouseDuckdbSync

/-! ## Basic helpers: SQL `MAX` and `ORDER BY` over row lists -/

/-- SQL `max(col)` over a list of watermark values (meaningful on nonempty
lists; `SELECT max` over an empty table yields NULL, handled separately). -/
def maxOf (l : List Nat) : Nat := l.foldr max 0

theorem le_maxOf {l : List Nat} {r : Nat} (h : r ∈ l) : r ≤ maxOf l := by
  induction l with
  | nil => cases h
  | cons x xs ih =>
    rcases List.mem_cons.mp h with h1 | h2
    · simp [maxOf, h1, Nat.le_max_left]
    · exact le_trans (ih h2) (by simp [maxOf, Nat.le_max_right])

/-- SQL `ORDER BY {ts_col}` ascending (executed by ClickHouse). -/
def sortAsc (l : List Nat) : List Nat := l.insertionSort (fun a b => a ≤ b)

theorem mem_sortAsc {l : List Nat} {x : Nat} : x ∈ sortAsc l ↔ x ∈ l :=
  List.mem_insertionSort _

theorem length_sortAsc (l : List Nat) : (sortAsc l).length = l.length :=
  List.length_insertionSort _ l

/-! ## Python-level values and the destination probe

`get_duckdb_max_timestamp` (lines 96–104):
```
try:
    result = conn.execute(f"SELECT max({ts_col}) FROM ch_{table}").fetchone()
    if result and result[0]:
        return result[0]
except:
    pass
return None
```
-/

/-- A Python value as returned in a DuckDB result cell: `NULL`/`None`, an
integer, a string, or a `datetime` timestamp (carrying its epoch seconds). -/
inductive Value where
  | vnull : Value
  | vint : Int → Value
  | vstr : String → Value
  | vts : Nat → Value
deriving DecidableEq

/-- Python truthiness of a `Value`: `None` is falsy, `0` is falsy, `""` is
falsy, and a `datetime` object is always truthy. -/
def truthy : Value → Bool
  | .vnull => false
  | .vint n => decide (n ≠ 0)
  | .vstr s => decide (s ≠ "")
  | .vts _ => true

/-- Outcome of `conn.execute("SELECT max(ts) FROM ch_t").fetchone()`:
the statement raised (table missing / malformed schema), returned no row,
or returned a row holding one cell. -/
inductive ProbeOutcome where
  | err : ProbeOutcome
  | noRow : ProbeOutcome
  | row : Value → ProbeOutcome
deriving DecidableEq

/-- `get_duckdb_max_timestamp` (lines 96–104): any exception is swallowed;
a missing row, or a falsy cell (`NULL`, `0`, `""`), yields `None`. -/
def get_duckdb_max_timestamp : ProbeOutcome → Option Value
  | .err => none
  | .noRow => none
  | .row v => if truthy v then some v else none

/-- The resume decision implicit in `sync_table_offset` lines 276–299:
`max_ts` truthy ⇒ incremental with that cutoff, else full sync. -/
inductive ResumeDecision where
  | full : ResumeDecision
  | incremental : Value → ResumeDecision
deriving DecidableEq

/-- Resume-point resolution as performed by `sync_table_offset`
(lines 276–299): probe the destination unless `full_sync` was forced;
`if max_ts:` picks the incremental branch, everything else is a full sync. -/
def resolveResume (fullSync : Bool) (p : ProbeOutcome) : ResumeDecision :=
  if fullSync then .full else
  match get_duckdb_max_timestamp p with
  | none => .full
  | some v => .incremental v

/-- The destination-table probe (lines 96–104) run against a modelled DuckDB
state: absent table ⇒ the `SELECT max` raises; empty table ⇒ the row holds
NULL; nonempty table ⇒ the row holds `enc (max)` where `enc` embeds the
column's type (`Value.vts` for TIMESTAMP columns, `Value.vint ∘ Int.ofNat`
for integer columns). -/
def probeOutcome (enc : Nat → Value) : Option (List Nat) → ProbeOutcome
  | none => .err
  | some [] => .row .vnull
  | some (x :: xs) => .row (enc (maxOf (x :: xs)))

/-- `get_duckdb_max_timestamp` over a modelled DuckDB state, returning the
cutoff as a natural (the same decision as `get_duckdb_max_timestamp ∘
probeOutcome`, with the cutoff unwrapped). -/
def duckMaxTs (enc : Nat → Value) : Option (List Nat) → Option Nat
  | none => none
  | some [] => none
  | some (x :: xs) =>
    if truthy (enc (maxOf (x :: xs))) then some (maxOf (x :: xs)) else none

theorem duckMaxTs_probe (enc : Nat → Value) (db : Option (List Nat)) :
    get_duckdb_max_timestamp (probeOutcome enc db) = (duckMaxTs enc db).map enc := by
  match db with
  | none => rfl
  | some [] => rfl
  | some (x :: xs) =>
    simp only [probeOutcome, duckMaxTs, get_duckdb_max_timestamp]
    by_cases h : truthy (enc (maxOf (x :: xs))) = true <;> simp [h]

/-! ## Batch fetcher: retry loop and offset pagination

`ch_query_batch` (lines 63–84):
```
for attempt in range(3):
    try:
        ... issue request ...
        return [json.loads(line) for line in lines if line]
    except Exception as e:
        if attempt == 2:
            raise
        print(f"Retry ...")
        time.sleep(2)
return []
```
-/

/-- One retry loop of `ch_query_batch`: `att n` is the outcome of the n-th
HTTP attempt (0-based). The second component lists the `time.sleep(2)`
delays performed between attempts. The fuel starts at 3 (`range(3)`); the
fuel-0 result models the dead `return []` after the loop. -/
def chRetryGo (att : Nat → Except String (List Nat)) :
    Nat → Nat → Except String (List Nat) × List Nat
  | _, 0 => (.ok [], [])
  | attempt, fuel + 1 =>
    match att attempt with
    | .ok rows => (.ok rows, [])
    | .error e =>
      if attempt = 2 then (.error e, [])
      else
        let r := chRetryGo att (attempt + 1) fuel
        (r.1, 2 :: r.2)

/-- `ch_query_batch` (lines 63–84) given the per-attempt outcomes: runs the
3-iteration retry loop from attempt 0. -/
def ch_query_batch (att : Nat → Except String (List Nat)) :
    Except String (List Nat) × List Nat :=
  chRetryGo att 0 3

/-- `LIMIT {limit} OFFSET {offset}` applied by ClickHouse to the ordered
result of the base query `rows`. -/
def chSlice (rows : List Nat) (limit offset : Nat) : List Nat :=
  (rows.drop offset).take limit

/-- The fetch loop of `sync_table_offset` (lines 316–343):
```
while offset < rows_to_sync:
    batch = ch_query_batch(query, batch_size, offset)
    if not batch: break
    conn.executemany(INSERT ..., batch)
    rows_synced += len(batch); offset += len(batch)
    ... progress ...
    if len(batch) < batch_size: break
```
`f offset` is the batch the source returns at that offset. The result is
the trace of fetches `(offset, batch)` and, separately, the batches
actually inserted. Each iteration with a nonempty batch advances `offset`
by at least one, so fuel `rowsToSync + 1` never runs out. -/
def syncFetchLoop (f : Nat → List Nat) (batchSize rowsToSync : Nat) :
    Nat → Nat → List (Nat × List Nat) × List (List Nat)
  | 0, _ => ([], [])
  | fuel + 1, offset =>
    if offset < rowsToSync then
      let batch := f offset
      if batch.isEmpty then ([(offset, batch)], [])
      else if batch.length < batchSize then ([(offset, batch)], [batch])
      else
        let r := syncFetchLoop f batchSize rowsToSync fuel (offset + batch.length)
        ((offset, batch) :: r.1, batch :: r.2)
    else ([], [])

/-! ## Offset-paginated sync driver

`sync_table_offset` (lines 260–350), with network and DuckDB I/O made
explicit: `src` is the source table's rows (watermark values), `db` the
destination table state, `enc` how DuckDB represents the watermark column's
values (timestamps for the configured tables). -/

/-- Result of one `sync_table_offset` run: the `True` return value, the
final `rows_synced`, and the destination table state afterwards. -/
structure SyncResult where
  ok : Bool
  transferred : Nat
  dest : Option (List Nat)
deriving DecidableEq

/-- `SELECT * FROM {table} WHERE {ts_col} > '{max_ts}' ORDER BY {ts_col}`
(line 291): the incremental base query. -/
def chIncrementalQuery (src : List Nat) (m : Nat) : List Nat :=
  sortAsc (src.filter (fun r => decide (m < r)))

/-- Rows written by the full-sync fetch loop (lines 294–343, `max_ts` absent
branch): base query `SELECT * FROM {table} ORDER BY {ts_col}`,
`rows_to_sync = total_rows` (the ClickHouse `count()`). -/
def fullSyncWritten (bs : Nat) (src : List Nat) : List Nat :=
  ((syncFetchLoop (chSlice (sortAsc src) bs) bs src.length (src.length + 1) 0).2).flatten

/-- The full-sync branch of `sync_table_offset` (lines 292–299, 312–350):
`DROP TABLE IF EXISTS` then `create_duckdb_table` leave an empty table,
and the fetch loop appends its batches to it. -/
def fullSyncRun (bs : Nat) (src : List Nat) : SyncResult :=
  { ok := true
    transferred := (fullSyncWritten bs src).length
    dest := some (fullSyncWritten bs src) }

/-- Rows written by the incremental fetch loop (lines 280–291, 316–343):
base query `chIncrementalQuery`, `rows_to_sync` the ClickHouse count of
rows strictly above the cutoff. -/
def incWritten (bs : Nat) (src : List Nat) (m : Nat) : List Nat :=
  ((syncFetchLoop (chSlice (chIncrementalQuery src m) bs) bs
      ((src.filter (fun r => decide (m < r))).length)
      ((src.filter (fun r => decide (m < r))).length + 1) 0).2).flatten

/-- The incremental branch of `sync_table_offset` (lines 280–291): if zero
new rows, report "Already up to date" and return without touching the
destination; otherwise run the fetch loop, appending to the existing
table (no drop, no create: `table_created = max_ts is not None`). -/
def incSyncRun (bs : Nat) (src : List Nat) (db : Option (List Nat)) (m : Nat) :
    SyncResult :=
  if (src.filter (fun r => decide (m < r))).length = 0 then
    { ok := true, transferred := 0, dest := db }
  else
    { ok := true
      transferred := (incWritten bs src m).length
      dest := some ((db.getD []) ++ incWritten bs src m) }

/-- `sync_table_offset` (lines 260–350): resolve the resume point via
`get_duckdb_max_timestamp` (unless `full_sync` forces a full run), then
take the incremental or the full branch. -/
def sync_table_offset (enc : Nat → Value) (bs : Nat) (src : List Nat)
    (db : Option (List Nat)) (fullSync : Bool) : SyncResult :=
  match (if fullSync then none else duckMaxTs enc db) with
  | some m => incSyncRun bs src db m
  | none => fullSyncRun bs src

/-- Number of rows in the destination table (0 if the table is absent). -/
def destCount (db : Option (List Nat)) : Nat := (db.getD []).length

/-! ## Date-bucketed sync (`sync_table_by_day`, lines 179–257)

Timestamps are epoch seconds; ClickHouse `toDate` truncates to the
calendar day. The Python comparison `day == str(max_ts)[:10]` compares
the bucket's `YYYY-MM-DD` string with the date part of the cutoff, i.e.
it holds exactly when the bucket's day equals the cutoff's day. -/

/-- ClickHouse `toDate(ts)`: the calendar day of an epoch-second value. -/
def toDate (t : Nat) : Nat := t / 86400

/-- The per-bucket fetch query chosen at lines 227–231:
```
if max_ts and day == str(max_ts)[:10]:
    query = f"SELECT * FROM {table} WHERE {ts_col} > '{max_ts}'"
else:
    query = f"SELECT * FROM {table} WHERE toDate({ts_col}) = '{day}'"
```
evaluated against source rows `src`. -/
def dayBucketQuery (src : List Nat) (maxTs : Option Nat) (day : Nat) : List Nat :=
  match maxTs with
  | some m =>
    if day = toDate m then src.filter (fun r => decide (m < r))
    else src.filter (fun r => decide (toDate r = day))
  | none => src.filter (fun r => decide (toDate r = day))

/-- The bucket list computed at lines 196–208:
`SELECT toDate(ts) as d, count() FROM t [WHERE toDate(ts) >= toDate(max_ts)]
GROUP BY d ORDER BY d` — the distinct days of the (possibly cutoff-filtered)
source rows, ascending. -/
def datesToSync (src : List Nat) (maxTs : Option Nat) : List Nat :=
  (sortAsc ((match maxTs with
    | some m => src.filter (fun r => decide (toDate m ≤ toDate r))
    | none => src).map toDate)).dedup

/-- All rows transferred by the day-bucket loop (lines 223–241): the
concatenation of each bucket's fetch result, buckets in date order. -/
def syncByDayRows (src : List Nat) (maxTs : Option Nat) : List Nat :=
  ((datesToSync src maxTs).map (dayBucketQuery src maxTs)).flatten

/-! ## Schema translation (`create_duckdb_table`, lines 112–146)

Python strings are sequences of code points, so column type names are
modelled as `List Char`; `ch_type[9:-1]` is `(drop 9).dropLast`. -/

/-- The `type_map` literal of lines 115–130. -/
def type_map : List (List Char × List Char) :=
  [("UInt8".data, "UTINYINT".data),
   ("UInt16".data, "USMALLINT".data),
   ("UInt32".data, "UINTEGER".data),
   ("UInt64".data, "UBIGINT".data),
   ("Int8".data, "TINYINT".data),
   ("Int16".data, "SMALLINT".data),
   ("Int32".data, "INTEGER".data),
   ("Int64".data, "BIGINT".data),
   ("Float32".data, "FLOAT".data),
   ("Float64".data, "DOUBLE".data),
   ("String".data, "VARCHAR".data),
   ("DateTime".data, "TIMESTAMP".data),
   ("Date".data, "DATE".data),
   ("UUID".data, "VARCHAR".data)]

/-- The `'Nullable('` pattern tested by `ch_type.startswith('Nullable(')`. -/
def nullableWrap : List Char := "Nullable(".data

/-- The per-column type translation of lines 134–142:
```
if ch_type.startswith('Nullable('):
    ch_type = ch_type[9:-1]
duck_type = type_map.get(ch_type, 'VARCHAR')
```
-/
def translateType (chType : List Char) : List Char :=
  let t := if nullableWrap.isPrefixOf chType then (chType.drop 9).dropLast else chType
  (type_map.lookup t).getD "VARCHAR".data

/-- The column-list translation of lines 132–143: one `(name, duck_type)`
per source column, in source order. -/
def translateSchema (cols : List (List Char × List Char)) :
    List (List Char × List Char) :=
  cols.map (fun c => (c.1, translateType c.2))

/-! ## Progress reporting

Offset loop (lines 331–339):
```
if elapsed - last_print_time >= 10 or rows_synced == len(batch):
    print(...)
    last_print_time = elapsed
```
with `last_print_time = 0` and `rows_synced = 0` initially.
Day loop (lines 243–251): the print is unconditional, once per bucket. -/

/-- The report decisions of the offset fetch loop: the input is the list of
written batches as `(length, elapsed-at-check)` pairs; the state is
`rows_synced` and `last_print_time`. Each output entry is
(reported?, elapsed at that check). -/
def offsetReportEntries : List (Nat × Nat) → Nat → Nat → List (Bool × Nat)
  | [], _, _ => []
  | (len, el) :: rest, rows, last =>
    let rows2 := rows + len
    let rep := decide (10 ≤ el - last) || decide (rows2 = len)
    (rep, el) :: offsetReportEntries rest rows2 (if rep then el else last)

/-- The spec's throttling property over a report trace: starting from the
time of the last report, every reported entry comes at least 10 seconds
after the previous report. -/
def WellThrottled : Nat → List (Bool × Nat) → Prop
  | _, [] => True
  | last, (f, el) :: rest =>
    (f = true → 10 ≤ el - last) ∧ WellThrottled (if f then el else last) rest

/-- The report decisions of the day-bucket loop (lines 243–251): one
unconditional report per bucket, at that bucket's elapsed time. The bucket
data is (rows of the day, elapsed after inserting them). -/
def byDayLoopReports : List (List Nat × Nat) → List (Bool × Nat)
  | [] => []
  | (_, el) :: rest => (true, el) :: byDayLoopReports rest

/-! ## The overall run (`main`, lines 379–417)

```
for table in TABLES:
    sync_table(conn, table)
```
No `try`/`except` surrounds the loop: an exception raised by a table's
sync propagates out of `main` and terminates the process (Python exits
with a nonzero status on an uncaught exception; with 0 when `main`
returns). The boolean that `sync_table` returns is ignored. -/

/-- The `for table in TABLES` loop of `main`: `syncT t` is table `t`'s sync,
`.ok b` its (ignored) return value, `.error e` an exception it raised.
Returns the results of the tables actually synced and the escaped
exception, if any. -/
def mainSyncLoop (syncT : Nat → Except Unit Bool) : List Nat → List Bool × Option Unit
  | [] => ([], none)
  | t :: rest =>
    match syncT t with
    | .error e => ([], some e)
    | .ok b =>
      let r := mainSyncLoop syncT rest
      (b :: r.1, r.2)

/-- The process exit code: 0 when `main` returns, 1 when an uncaught
exception escapes the table loop. -/
def processExitCode (syncT : Nat → Except Unit Bool) (tables : List Nat) : Nat :=
  if ((mainSyncLoop syncT tables).2).isSome then 1 else 0

/-- Whether a table's sync raised (used to state when the run aborts). -/
def raisedB : Except Unit Bool → Bool
  | .error _ => true
  | .ok _ => false

/-! ## Fetch-loop lemmas -/

/-- When the source really serves `LIMIT`/`OFFSET` slices of a fixed row
list `q` and `rows_to_sync = q.length`, the fetch loop inserts exactly the
rows of `q` from the starting offset on. -/
theorem syncFetchLoop_chSlice_flatten (q : List Nat) (bs : Nat) (hbs : 0 < bs) :
    ∀ fuel offset, offset ≤ q.length → q.length - offset < fuel →
      ((syncFetchLoop (chSlice q bs) bs q.length fuel offset).2).flatten = q.drop offset := by
  intro fuel
  induction fuel with
  | zero => intro offset _ hf; omega
  | succ n ih =>
    intro offset hoff hf
    by_cases hlt : offset < q.length
    · have hlen : (chSlice q bs offset).length = min bs (q.length - offset) := by
        simp [chSlice, List.length_take, List.length_drop]
      have hpos : 0 < (chSlice q bs offset).length := by
        rw [hlen]; omega
      have hne : (chSlice q bs offset).isEmpty = false := by
        cases he : chSlice q bs offset with
        | nil => rw [he] at hpos; simp at hpos
        | cons a l => rfl
      by_cases hshort : (chSlice q bs offset).length < bs
      · have hrest : q.length - offset < bs := by omega
        have htake : chSlice q bs offset = q.drop offset := by
          apply List.take_of_length_le
          rw [List.length_drop]; omega
        simp only [syncFetchLoop, if_pos hlt, hne, Bool.false_eq_true, if_false,
          if_pos hshort]
        simp [htake]
      · have hfull : (chSlice q bs offset).length = bs := by omega
        simp only [syncFetchLoop, if_pos hlt, hne, Bool.false_eq_true, if_false,
          if_neg hshort]
        have ihres := ih (offset + (chSlice q bs offset).length)
          (by rw [hfull]; omega) (by rw [hfull]; omega)
        simp only [List.flatten_cons, ihres]
        rw [hfull]
        have : q.drop (offset + bs) = (q.drop offset).drop bs := by
          rw [List.drop_drop, Nat.add_comm]
        rw [this]
        have : chSlice q bs offset = (q.drop offset).take bs := rfl
        rw [this, List.take_append_drop]
    · have : offset = q.length := by omega
      subst this
      simp [syncFetchLoop, List.drop_length]

/-- The full-sync fetch loop transfers exactly the ordered source rows. -/
theorem fullSyncWritten_eq (bs : Nat) (hbs : 0 < bs) (src : List Nat) :
    fullSyncWritten bs src = sortAsc src := by
  have h := syncFetchLoop_chSlice_flatten (sortAsc src) bs hbs (src.length + 1) 0
    (by omega) (by rw [length_sortAsc]; omega)
  unfold fullSyncWritten
  rw [← length_sortAsc src] at h ⊢
  simpa using h

/-- The incremental fetch loop transfers exactly the ordered new rows. -/
theorem incWritten_eq (bs : Nat) (hbs : 0 < bs) (src : List Nat) (m : Nat) :
    incWritten bs src m = chIncrementalQuery src m := by
  have hlen : (chIncrementalQuery src m).length
      = (src.filter (fun r => decide (m < r))).length := by
    simp [chIncrementalQuery, length_sortAsc]
  have h := syncFetchLoop_chSlice_flatten (chIncrementalQuery src m) bs hbs
    ((src.filter (fun r => decide (m < r))).length + 1) 0 (by omega) (by omega)
  unfold incWritten
  rw [← hlen] at h ⊢
  simpa using h

/-! ## C3: a short batch is the authoritative stop signal -/

/-- C3 (confirmed). In the offset fetch loop, as soon as a fetched batch is
strictly smaller than the requested batch size the loop stops requesting
further offsets — for any fetch oracle `f` and any precomputed total
`rowsToSync`, every fetched batch except the last one has at least
`batchSize` rows (so a short batch is always the final fetch, no matter how
many rows the total still promised) — and the batches written to the
destination are exactly the nonempty fetched batches, in order (so the
short batch's rows are written before stopping). -/
theorem c3_short_batch_stops (f : Nat → List Nat) (bs total fuel offset : Nat) :
    (∀ p ∈ ((syncFetchLoop f bs total fuel offset).1).dropLast, ¬ p.2.length < bs)
    ∧ (syncFetchLoop f bs total fuel offset).2
      = (((syncFetchLoop f bs total fuel offset).1).map Prod.snd).filter
          (fun b => !b.isEmpty) := by
  induction fuel generalizing offset with
  | zero => simp [syncFetchLoop]
  | succ n ih =>
    by_cases hlt : offset < total
    · by_cases hemp : (f offset).isEmpty
      · constructor
        · intro p hp
          simp [syncFetchLoop, if_pos hlt, hemp] at hp
        · simp [syncFetchLoop, if_pos hlt, hemp]
      · rw [Bool.not_eq_true] at hemp
        by_cases hshort : (f offset).length < bs
        · constructor
          · intro p hp
            simp [syncFetchLoop, if_pos hlt, hemp, if_pos hshort] at hp
          · simp [syncFetchLoop, if_pos hlt, hemp, if_pos hshort]
        · have htr : (syncFetchLoop f bs total (n + 1) offset).1
              = (offset, f offset) :: (syncFetchLoop f bs total n (offset + (f offset).length)).1 := by
            simp [syncFetchLoop, if_pos hlt, hemp, if_neg hshort]
          have hwr : (syncFetchLoop f bs total (n + 1) offset).2
              = f offset :: (syncFetchLoop f bs total n (offset + (f offset).length)).2 := by
            simp [syncFetchLoop, if_pos hlt, hemp, if_neg hshort]
          constructor
          · intro p hp
            rw [htr] at hp
            cases hr : (syncFetchLoop f bs total n (offset + (f offset).length)).1 with
            | nil =>
              rw [hr] at hp
              simp at hp
            | cons y ys =>
              rw [hr, List.dropLast_cons_of_ne_nil (by simp)] at hp
              rcases List.mem_cons.mp hp with h1 | h2
              · rw [h1]; exact hshort
              · exact (ih (offset + (f offset).length)).1 p (by rw [hr]; exact h2)
          · rw [htr, hwr]
            simp only [List.map_cons, List.filter_cons]
            rw [(ih (offset + (f offset).length)).2]
            simp [hemp]
    · simp [syncFetchLoop, if_neg hlt]

/-- C3 witness: a concrete run — source of 3 rows served in slices of
limit 2 while the stale total still claims 99 rows. The loop fetches a
full batch at offset 0, the short batch `[30]` at offset 2, writes both,
and stops. -/
theorem c3_short_batch_stops_witness :
    (∀ p ∈ ((syncFetchLoop (chSlice [10, 20, 30] 2) 2 99 100 0).1).dropLast,
        ¬ p.2.length < 2)
    ∧ (syncFetchLoop (chSlice [10, 20, 30] 2) 2 99 100 0).2
      = (((syncFetchLoop (chSlice [10, 20, 30] 2) 2 99 100 0).1).map Prod.snd).filter
          (fun b => !b.isEmpty)
    ∧ (syncFetchLoop (chSlice [10, 20, 30] 2) 2 99 100 0).2 = [[10, 20], [30]] := by
  refine ⟨(c3_short_batch_stops (chSlice [10, 20, 30] 2) 2 99 100 0).1,
    (c3_short_batch_stops (chSlice [10, 20, 30] 2) 2 99 100 0).2, by decide⟩

/-! ## C8: retry policy of `ch_query_batch` -/

/-- C8 (confirmed). The batch fetch makes up to 3 attempts: success on any
attempt returns that attempt's rows immediately; each failed non-final
attempt is followed by one fixed `sleep(2)`; when all 3 attempts fail, the
3rd attempt's error propagates (is re-raised) after exactly two sleeps. -/
theorem c8_retry_policy (att : Nat → Except String (List Nat)) :
    (∀ r, att 0 = .ok r → ch_query_batch att = (.ok r, []))
    ∧ (∀ e0 r, att 0 = .error e0 → att 1 = .ok r →
        ch_query_batch att = (.ok r, [2]))
    ∧ (∀ e0 e1 r, att 0 = .error e0 → att 1 = .error e1 → att 2 = .ok r →
        ch_query_batch att = (.ok r, [2, 2]))
    ∧ (∀ e0 e1 e2, att 0 = .error e0 → att 1 = .error e1 → att 2 = .error e2 →
        ch_query_batch att = (.error e2, [2, 2])) := by
  refine ⟨?_, ?_, ?_, ?_⟩
  · intro r h0
    simp [ch_query_batch, chRetryGo, h0]
  · intro e0 r h0 h1
    simp [ch_query_batch, chRetryGo, h0, h1]
  · intro e0 e1 r h0 h1 h2
    simp [ch_query_batch, chRetryGo, h0, h1, h2]
  · intro e0 e1 e2 h0 h1 h2
    simp [ch_query_batch, chRetryGo, h0, h1, h2]

/-- C8 witness: an oracle that fails twice then succeeds on the 3rd attempt
returns the 3rd attempt's rows after two 2-second sleeps. -/
theorem c8_retry_policy_witness :
    ch_query_batch (fun n => if n < 2 then .error "timeout" else .ok [7]) = (.ok [7], [2, 2]) :=
  (c8_retry_policy (fun n => if n < 2 then .error "timeout" else .ok [7])).2.2.1
    "timeout" "timeout" [7] rfl rfl rfl

/-! ## C6: schema translation -/

theorem isPrefixOf_append_self (l₁ l₂ : List Char) : l₁.isPrefixOf (l₁ ++ l₂) = true := by
  induction l₁ with
  | nil => simp [List.isPrefixOf]
  | cons a as ih => simp [List.isPrefixOf, ih]

/-- C6 (confirmed). The schema translation is total and deterministic (it is
a function): every column list of length N yields N destination columns
with the same names in the same order; a source type that is not
nullable-wrapped and absent from `type_map` maps to the generic `VARCHAR`
text type; and a `Nullable(T)`-wrapped type is translated by looking up the
inner type `T` in the mapping table (with the same `VARCHAR` fallback). -/
theorem c6_schema_translation (cols : List (List Char × List Char)) :
    (translateSchema cols).length = cols.length
    ∧ (translateSchema cols).map Prod.fst = cols.map Prod.fst
    ∧ (∀ t : List Char, nullableWrap.isPrefixOf t = false →
        type_map.lookup t = none → translateType t = "VARCHAR".data)
    ∧ (∀ t : List Char,
        translateType (nullableWrap ++ t ++ [')'])
          = (type_map.lookup t).getD "VARCHAR".data) := by
  refine ⟨by simp [translateSchema], by simp [translateSchema], ?_, ?_⟩
  · intro t hpre hlook
    simp [translateType, hpre, hlook]
  · intro t
    have hassoc : nullableWrap ++ t ++ [')'] = nullableWrap ++ (t ++ [')']) :=
      List.append_assoc ..
    have hpre : nullableWrap.isPrefixOf (nullableWrap ++ t ++ [')']) = true := by
      rw [hassoc]; exact isPrefixOf_append_self ..
    have hlen : nullableWrap.length = 9 := rfl
    have hdrop : (nullableWrap ++ t ++ [')']).drop 9 = t ++ [')'] := by
      rw [hassoc, ← hlen, List.drop_left]
    simp only [translateType, hpre, if_pos, hdrop, List.dropLast_concat]

/-- C6 witness: the unmapped type `Foo` falls back to `VARCHAR`, and
`Nullable(Int32)` is translated by `Int32`'s mapping, `INTEGER`. -/
theorem c6_schema_translation_witness :
    nullableWrap.isPrefixOf "Foo".data = false
    ∧ type_map.lookup "Foo".data = none
    ∧ translateType "Foo".data = "VARCHAR".data
    ∧ translateType (nullableWrap ++ "Int32".data ++ [')']) = "INTEGER".data := by
  refine ⟨rfl, rfl, (c6_schema_translation []).2.2.1 "Foo".data rfl rfl, ?_⟩
  rw [(c6_schema_translation []).2.2.2 "Int32".data]
  rfl

/-! ## C1: a fatal per-table error and the rest of the run -/

/-- C1 counterexample. Two configured tables; the first table's sync raises
a fatal fetch error (`ch_query_batch` re-raised after its retries), the
second table's sync would succeed. The run ends with the exception after
the first table: the result list is empty — the second table is never
synced — refuting "the overall run proceeds to sync the remaining
configured tables". -/
theorem c1_counterexample :
    mainSyncLoop (fun t => if t = 0 then .error () else .ok true) [0, 1]
      = ([], some ()) := rfl

/-- C1 (corrected). When a table's sync raises a fatal error, `main`'s
table loop has no handler: the failing table's sync is abandoned and the
exception aborts the whole run, so the tables after it are never synced —
only the tables before the failing one produce results, and the run ends
with the escaped exception. -/
theorem c1_fatal_aborts_run (f : Nat → Except Unit Bool) (pre post : List Nat)
    (t : Nat) (hpre : ∀ x ∈ pre, f x = .ok true) (ht : f t = .error ()) :
    mainSyncLoop f (pre ++ t :: post) = (pre.map (fun _ => true), some ()) := by
  induction pre with
  | nil => simp [mainSyncLoop, ht]
  | cons a as ih =>
    have ha := hpre a (by simp)
    have hrest := ih (fun x hx => hpre x (by simp [hx]))
    simp [mainSyncLoop, ha, hrest]

/-- C1 witness: with table 1 succeeding, table 0 raising and table 2
configured after it, only table 1 is synced and the error escapes. -/
theorem c1_fatal_aborts_run_witness :
    mainSyncLoop (fun t => if t = 0 then .error () else .ok true) ([1] ++ 0 :: [2])
      = ([true], some ()) :=
  c1_fatal_aborts_run (fun t => if t = 0 then .error () else .ok true) [1] [2] 0
    (by intro x hx; simp at hx; subst hx; rfl) rfl

/-! ## C2: the process exit code -/

/-- C2 counterexample. One configured table whose sync fails without
raising (`sync_table_offset` prints "✗ Failed to get info" and returns
`False` when the source info probe yields nothing): `main` ignores the
returned boolean, so the process exits 0 even though that table's sync
failed — refuting "non-zero when any table's sync reached FAILED". -/
theorem c2_counterexample :
    processExitCode (fun _ => .ok false) [0] = 0 := rfl

/-- C2 (corrected). The process exit code is 0 exactly when no table's
sync raises: it is 0 on full success, but also 0 when a table's sync fails
by returning `False` (the boolean is ignored by `main`); it is nonzero
only when some table's sync raises a fatal error — in which case the run
also aborted before the remaining tables. -/
theorem c2_exit_code (f : Nat → Except Unit Bool) (tables : List Nat) :
    processExitCode f tables = if tables.any (fun t => raisedB (f t)) then 1 else 0 := by
  induction tables with
  | nil => rfl
  | cons a as ih =>
    cases hfa : f a with
    | error e =>
      simp [processExitCode, mainSyncLoop, hfa, raisedB]
    | ok b =>
      have h2 : (mainSyncLoop f (a :: as)).2 = (mainSyncLoop f as).2 := by
        simp [mainSyncLoop, hfa]
      simp only [processExitCode, h2, List.any_cons, hfa, raisedB, Bool.false_or]
      simpa [processExitCode] using ih

/-! ## C5: resume-point resolution -/

/-- C5 counterexample. A destination probe that returns the row `(0,)` —
a maximum watermark value exists (an integer watermark column whose
largest value is 0) — nevertheless resolves to a FULL sync, because
line 100 (`if result and result[0]`) treats the falsy maximum `0` as
absent; this refutes "if a maximum watermark value exists, the result is
INCREMENTAL with that value as cutoff". -/
theorem c5_counterexample :
    resolveResume false (ProbeOutcome.row (Value.vint 0)) = ResumeDecision.full
    ∧ resolveResume false (ProbeOutcome.row (Value.vint 0))
      ≠ ResumeDecision.incremental (Value.vint 0) := by decide

/-- C5 (corrected). Resume-point resolution never propagates an error: a
missing destination table (the probe raises), an empty probe result, and a
NULL maximum all resolve to FULL with no cutoff; a maximum watermark value
that exists *and is truthy* (non-NULL, nonzero, nonempty — in particular
any timestamp) resolves to INCREMENTAL with that value as cutoff; and the
incremental source query requests only rows strictly greater than the
cutoff. (A falsy maximum — `0`, `""`, NULL — is treated as absent and
downgraded to FULL.) -/
theorem c5_resume_resolution :
    (resolveResume false ProbeOutcome.err = ResumeDecision.full
      ∧ resolveResume false ProbeOutcome.noRow = ResumeDecision.full
      ∧ resolveResume false (ProbeOutcome.row Value.vnull) = ResumeDecision.full)
    ∧ (∀ v, truthy v = true →
        resolveResume false (ProbeOutcome.row v) = ResumeDecision.incremental v)
    ∧ (∀ (src : List Nat) (m : Nat), ∀ r ∈ chIncrementalQuery src m, m < r) := by
  refine ⟨⟨rfl, rfl, rfl⟩, ?_, ?_⟩
  · intro v hv
    simp [resolveResume, get_duckdb_max_timestamp, hv]
  · intro src m r hr
    have hmem := mem_sortAsc.mp hr
    simpa using (List.mem_filter.mp hmem).2

/-- C5 witness: a truthy timestamp maximum resolves to INCREMENTAL with
that cutoff, and row 7 of an incremental query with cutoff 5 is above it. -/
theorem c5_resume_resolution_witness :
    resolveResume false (ProbeOutcome.row (Value.vts 5))
      = ResumeDecision.incremental (Value.vts 5)
    ∧ 5 < 7 :=
  ⟨c5_resume_resolution.2.1 (Value.vts 5) rfl,
   c5_resume_resolution.2.2 [3, 7] 5 7 (by decide)⟩

/-! ## C10: a falsy maximum watermark value forces a full resync -/

/-- The DuckDB encoding of an integer watermark column (e.g. a `UInt32`
epoch column translated to `UINTEGER`): `fetchone` yields a Python int. -/
def encInt (n : Nat) : Value := Value.vint (Int.ofNat n)

/-- C10 (confirmed). The probe returns no cutoff whenever the fetched
maximum is falsy — `0`, the empty string, or NULL — not only when the
table is absent, empty, or the probe errors; and in that case an existing
non-empty destination table is treated as a fresh FULL sync: it is dropped
and recreated, ending up holding exactly the (ordered) source rows, with
every source row re-transferred. -/
theorem c10_falsy_max_full_resync :
    (∀ v, truthy v = false → get_duckdb_max_timestamp (ProbeOutcome.row v) = none)
    ∧ get_duckdb_max_timestamp (ProbeOutcome.row (Value.vint 0)) = none
    ∧ get_duckdb_max_timestamp (ProbeOutcome.row (Value.vstr "")) = none
    ∧ get_duckdb_max_timestamp (ProbeOutcome.row Value.vnull) = none
    ∧ (∀ (bs : Nat) (src old : List Nat), 0 < bs → old ≠ [] → maxOf old = 0 →
        sync_table_offset encInt bs src (some old) false
          = { ok := true, transferred := src.length, dest := some (sortAsc src) }) := by
  refine ⟨?_, rfl, rfl, rfl, ?_⟩
  · intro v hv
    simp [get_duckdb_max_timestamp, hv]
  · intro bs src old hbs hold hmax
    have hduck : duckMaxTs encInt (some old) = none := by
      cases old with
      | nil => exact absurd rfl hold
      | cons x xs =>
        have : truthy (encInt (maxOf (x :: xs))) = false := by
          rw [hmax]; rfl
        simp [duckMaxTs, this]
    simp [sync_table_offset, hduck, fullSyncRun, fullSyncWritten_eq bs hbs src,
      length_sortAsc]

/-- C10 witness: destination `[0]` (nonempty, maximum 0) with source `[5]`
is dropped and fully resynced. -/
theorem c10_falsy_max_full_resync_witness :
    sync_table_offset encInt 50000 [5] (some [0]) false
      = { ok := true, transferred := [5].length, dest := some (sortAsc [5]) } :=
  c10_falsy_max_full_resync.2.2.2.2 50000 [5] [0] (by decide) (by decide) rfl

/-! ## C7: FULL-then-INCREMENTAL round trip -/

/-- The probe of a nonempty TIMESTAMP-watermark table yields its (truthy)
maximum. -/
theorem duckMaxTs_vts_nonempty (l : List Nat) (hl : l ≠ []) :
    duckMaxTs Value.vts (some l) = some (maxOf l) := by
  cases l with
  | nil => exact absurd rfl hl
  | cons x xs => simp [duckMaxTs, truthy]

/-- C7 (confirmed). For a timestamp-watermark table synced from scratch
(destination absent ⇒ FULL) and then re-synced with the same source rows
(no new rows ⇒ INCREMENTAL off the stored maximum), the second run
transfers 0 rows and leaves the destination row count unchanged. -/
theorem c7_roundtrip (bs : Nat) (hbs : 0 < bs) (src : List Nat) :
    (sync_table_offset Value.vts bs src
        ((sync_table_offset Value.vts bs src none false).dest) false).transferred = 0
    ∧ destCount ((sync_table_offset Value.vts bs src
        ((sync_table_offset Value.vts bs src none false).dest) false).dest)
      = destCount ((sync_table_offset Value.vts bs src none false).dest) := by
  have h1 : sync_table_offset Value.vts bs src none false
      = { ok := true, transferred := src.length, dest := some (sortAsc src) } := by
    simp [sync_table_offset, duckMaxTs, fullSyncRun, fullSyncWritten_eq bs hbs src,
      length_sortAsc]
  rw [h1]
  by_cases hsrc : src = []
  · subst hsrc
    constructor
    · simp [sync_table_offset, sortAsc, List.insertionSort, duckMaxTs, fullSyncRun,
        fullSyncWritten, syncFetchLoop]
    · simp [sync_table_offset, sortAsc, List.insertionSort, duckMaxTs, fullSyncRun,
        fullSyncWritten, syncFetchLoop, destCount]
  · have hne : sortAsc src ≠ [] := by
      intro h
      have := length_sortAsc src
      rw [h] at this
      exact hsrc (List.length_eq_zero.mp this.symm)
    have hmax := duckMaxTs_vts_nonempty (sortAsc src) hne
    have hfilt : src.filter (fun r => decide (maxOf (sortAsc src) < r)) = [] := by
      rw [List.filter_eq_nil_iff]
      intro a ha
      have hle : a ≤ maxOf (sortAsc src) := le_maxOf (mem_sortAsc.mpr ha)
      simp
      omega
    constructor
    · simp [sync_table_offset, hmax, incSyncRun, hfilt]
    · simp [sync_table_offset, hmax, incSyncRun, hfilt]

/-- C7 witness: batch size 50000, source rows `[3, 1, 2]` — the second run
transfers nothing. -/
theorem c7_roundtrip_witness :
    (sync_table_offset Value.vts 50000 [3, 1, 2]
        ((sync_table_offset Value.vts 50000 [3, 1, 2] none false).dest) false).transferred = 0 :=
  (c7_roundtrip 50000 (by decide) [3, 1, 2]).1

/-! ## C4: the cutoff day is fetched strictly above the cutoff -/

/-- C4 (confirmed). In an incremental day-bucketed sync with cutoff `m`:
the bucket of `m`'s own calendar day is fetched with the strict filter
`watermark > m` (not whole-day membership), every other bucket is fetched
by whole-day membership, and consequently every transferred row is
strictly after the cutoff — no row at or before `m` (in particular none
of the cutoff day's already-synced rows) is re-transferred. -/
theorem c4_cutoff_day_strict (src : List Nat) (m : Nat) :
    (∀ r ∈ syncByDayRows src (some m), m < r)
    ∧ (∀ d, d ≠ toDate m →
        dayBucketQuery src (some m) d = src.filter (fun r => decide (toDate r = d)))
    ∧ dayBucketQuery src (some m) (toDate m) = src.filter (fun r => decide (m < r)) := by
  refine ⟨?_, ?_, by simp [dayBucketQuery]⟩
  · intro r hr
    rcases List.mem_flatten.mp hr with ⟨bucket, hb, hrb⟩
    rcases List.mem_map.mp hb with ⟨d, hd, rfl⟩
    have hdge : toDate m ≤ d := by
      simp only [datesToSync] at hd
      have hd2 := List.mem_dedup.mp hd
      rcases List.mem_map.mp (mem_sortAsc.mp hd2) with ⟨r', hr', rfl⟩
      simpa using (List.mem_filter.mp hr').2
    by_cases hcut : d = toDate m
    · subst hcut
      rw [dayBucketQuery, if_pos rfl] at hrb
      simpa using (List.mem_filter.mp hrb).2
    · rw [dayBucketQuery, if_neg hcut] at hrb
      have hrd : toDate r = d := by simpa using (List.mem_filter.mp hrb).2
      have hlt : toDate m < toDate r := by omega
      by_contra hle
      push_neg at hle
      have : toDate r ≤ toDate m := Nat.div_le_div_right hle
      omega
  · intro d hd
    simp [dayBucketQuery, hd]

/-- C4 witness: cutoff 100 (inside day 0), source rows 50 (before the
cutoff), 150 (same day, after it) and 86410 (next day): the rows
transferred are exactly those strictly after the cutoff; the day-1 bucket
is whole-day; the day-0 bucket is the strict filter. -/
theorem c4_cutoff_day_strict_witness :
    (100 < 150 ∧ 100 < 86410)
    ∧ dayBucketQuery [50, 150, 86410] (some 100) 1
      = [50, 150, 86410].filter (fun r => decide (toDate r = 1))
    ∧ dayBucketQuery [50, 150, 86410] (some 100) (toDate 100)
      = [50, 150, 86410].filter (fun r => decide (100 < r)) := by
  refine ⟨⟨?_, ?_⟩, ?_, (c4_cutoff_day_strict [50, 150, 86410] 100).2.2⟩
  · exact (c4_cutoff_day_strict [50, 150, 86410] 100).1 150 (by decide)
  · exact (c4_cutoff_day_strict [50, 150, 86410] 100).1 86410 (by decide)
  · exact (c4_cutoff_day_strict [50, 150, 86410] 100).2.1 1 (by decide)

/-! ## C9: progress-report throttling -/

/-- Once at least one batch has been written (`rows ≥ 1`), every report the
offset loop emits comes at least 10 seconds after the previous report:
`rows_synced == len(batch)` can never fire again (batches are nonempty),
so only the `elapsed - last_print_time >= 10` disjunct can. -/
theorem offsetReportEntries_wellThrottled :
    ∀ (batches : List (Nat × Nat)) (rows last : Nat), 1 ≤ rows →
      (∀ p ∈ batches, 1 ≤ p.1) →
      WellThrottled last (offsetReportEntries batches rows last) := by
  intro batches
  induction batches with
  | nil => intro rows last _ _; trivial
  | cons b rest ih =>
    obtain ⟨len, el⟩ := b
    intro rows last hrows hlen
    simp only [offsetReportEntries, WellThrottled]
    constructor
    · intro hf
      rcases (Bool.or_eq_true _ _).mp hf with h | h
      · exact of_decide_eq_true h
      · have := of_decide_eq_true h
        omega
    · exact ih (rows + len) _ (by omega) (fun p hp => hlen p (by simp [hp]))

/-- The day-bucket loop reports after every bucket, unconditionally. -/
theorem byDayLoopReports_all_true :
    ∀ (buckets : List (List Nat × Nat)), ∀ q ∈ byDayLoopReports buckets, q.1 = true := by
  intro buckets
  induction buckets with
  | nil => intro q hq; cases hq
  | cons b rest ih =>
    obtain ⟨day, el⟩ := b
    intro q hq
    rcases List.mem_cons.mp hq with h | h
    · rw [h]
    · exact ih q h

/-- C9 counterexample. A date-bucketed run with two buckets, the second
finishing 1 second after the first: line 251 prints unconditionally, so
both buckets report — the second report comes only 1 second (< 10) after
the previous one and is not the first batch of the run, refuting the
10-second throttle for "every sync run". -/
theorem c9_counterexample :
    byDayLoopReports [([50], 0), ([60], 1)] = [(true, 0), (true, 1)]
    ∧ 1 - 0 < 10 := by decide

/-- C9 (corrected). In every *offset-paginated* sync run (batches are
nonempty, recorded as (length, elapsed-at-check) pairs): the very first
batch always produces a report immediately, and from then on a report is
emitted only when at least 10 seconds have elapsed since the previous
report. In *date-bucketed* runs, by contrast, a report is emitted after
every bucket unconditionally, with no spacing requirement. -/
theorem c9_throttling (batches : List (Nat × Nat))
    (hlen : ∀ p ∈ batches, 1 ≤ p.1) :
    (∀ len el rest, batches = (len, el) :: rest →
      offsetReportEntries batches 0 0
        = (true, el) :: offsetReportEntries rest len el
      ∧ WellThrottled el (offsetReportEntries rest len el))
    ∧ (∀ (buckets : List (List Nat × Nat)), ∀ q ∈ byDayLoopReports buckets, q.1 = true) := by
  refine ⟨?_, byDayLoopReports_all_true⟩
  intro len el rest hb
  subst hb
  have hrep : (decide (10 ≤ el - 0) || decide (0 + len = len)) = true := by
    simp
  constructor
  · simp only [offsetReportEntries, hrep]
    simp
  · exact offsetReportEntries_wellThrottled rest len el
      (by have := hlen (len, el) (by simp); simpa using this)
      (fun p hp => hlen p (by simp [hp]))

/-- C9 witness: two batches of 3 and 4 rows checked at elapsed 0 and 12 —
the first reports immediately, and the trace from the first report on is
well throttled. -/
theorem c9_throttling_witness :
    (offsetReportEntries [(3, 0), (4, 12)] 0 0
      = (true, 0) :: offsetReportEntries [(4, 12)] 3 0
      ∧ WellThrottled 0 (offsetReportEntries [(4, 12)] 3 0))
    ∧ offsetReportEntries [(3, 0), (4, 12)] 0 0 = [(true, 0), (true, 12)] :=
  ⟨(c9_throttling [(3, 0), (4, 12)] (by decide)).1 3 0 [(4, 12)] rfl, by decide⟩

end ClickhouseDuckdbSync
